import Mathlib

/-!
Verification development for the ODD SDK authority core (`ts-odd`):
the encrypted pairing-session protocol (Producer side), the query
containment algorithm, the capability-ticket resolution layer
("Inventory") and the ticket repository ("Cabinet").

Source files embedded here:
  * `src/components/authority/browser-url/provider.ts` (Producer session)
  * `src/repositories/cabinet.ts` (Cabinet `Repo`)
  * `src/fileSystem.ts` (`options` / `onCommit`)
Parts of the repository that are only referenced from those files
(`authority/query.ts`, `browser-url/common.ts`, `browser-url/session.ts`,
`inventory.ts`, `repository.ts`, `ticket/index.ts`) are not present in
the source tree; those are modelled from the specification, and each
such definition carries a `Modelled from the spec:` doc comment.
-/

namespace Odd

/-! ### Query model

Modelled from the spec: `authority/query.ts` is absent from the source
tree.  §3 "Query" and §4.2 of the spec describe a tagged union of
`AccountQuery` and `FileSystemQuery` and the structural containment
relation `Query.isContained`. -/

/-- Modelled from the spec: partition of the file-system namespace,
"public" (unencrypted) or "private" (encrypted). -/
inductive Partition where
  | pub
  | priv
deriving DecidableEq, Repr

/-- Modelled from the spec: declared access mode of a `FileSystemQuery`;
§4.2 requires "parent's access mode ≥ child's requested mode". -/
inductive Mode where
  | read
  | write
deriving DecidableEq, Repr

/-- Modelled from the spec: `parent` mode is at least `child` mode. -/
def Mode.ge : Mode → Mode → Bool
  | _, .read => true
  | .write, .write => true
  | .read, .write => false

/-- Modelled from the spec: requested scope of an `AccountQuery`;
"wildcard scope contains everything" (§4.2). -/
inductive Scope where
  | wildcard
  | caps (names : List String)
deriving DecidableEq, Repr

/-- Modelled from the spec: `parent` scope is a superset of `child` scope;
wildcard contains everything, a concrete scope contains a concrete
sub-scope. -/
def Scope.superset : Scope → Scope → Bool
  | .wildcard, _ => true
  | .caps _, .wildcard => false
  | .caps a, .caps b => b.all (fun x => x ∈ a)

/-- Modelled from the spec: an account-level capability request ("request
account-level capability, e.g. update the data root", §3). -/
structure AccountQuery where
  did : String
  scope : Scope
deriving DecidableEq, Repr

/-- Modelled from the spec: a file-system capability request ("request
capability over a specific DID + path, with a declared access mode", §3). -/
structure FileSystemQuery where
  did : String
  partition : Partition
  path : List String
  mode : Mode
deriving DecidableEq, Repr

/-- Modelled from the spec: queries are "polymorphic over two variants"
(§3), a tagged union (design note §9). -/
inductive Query where
  | account (q : AccountQuery)
  | fileSystem (q : FileSystemQuery)
deriving DecidableEq, Repr

/-- Modelled from the spec: `Query.isContained({parent, child})` (§4.2):
for `AccountQuery` pairs, contained iff same DID and parent's scope is a
superset of child's; for `FileSystemQuery` pairs, contained iff same DID,
same partition, parent's path is a prefix of (or equal to) child's path,
and parent's mode ≥ child's mode; cross-variant pairs are never
contained. -/
def Query.isContained (parent child : Query) : Bool :=
  match parent, child with
  | .account p, .account c =>
      p.did == c.did && p.scope.superset c.scope
  | .fileSystem p, .fileSystem c =>
      p.did == c.did && p.partition == c.partition
        && p.path.isPrefixOf c.path && p.mode.ge c.mode
  | _, _ => false

end Odd



namespace Odd

/-! ### Tickets

`src/ticket/types.ts` defines the `Ticket` type; the proof references a
UCAN embeds inside its encoded `token` are surfaced here as a `proofs`
field, since `bundleTickets` and the fresh-delegation logic walk them. -/

/-- A capability ticket (`src/ticket/types.ts`): issuer, audience and the
encoded token.  The `proofs` field models the proof references (content
hashes of ancestor tickets) that the encoded token embeds. -/
structure Ticket where
  issuer : String
  audience : String
  token : String
  proofs : List String
deriving DecidableEq, Repr

/-- Modelled from the spec: `Tickets.cid` (`ticket/index.ts` is absent) —
"a ticket's content hash (its CID) is its stable identity for indexing
and for proof references" (§3).  Modelled as a string encoding of the
ticket's issuer, audience and encoded token (the token is the encoded
form of the ticket, which is what gets hashed; the `proofs` field is the
decoded view of references the token embeds). -/
def cidOf (t : Ticket) : String :=
  "cid(" ++ t.issuer ++ "|" ++ t.audience ++ "|" ++ t.token ++ ")"

/-- Modelled from the spec: `Tickets.collectUnique` (`ticket/index.ts` is
absent) — "de-duplicates by content hash, preserving first-seen order"
(§4.2). -/
def collectUnique (tickets : List Ticket) : List Ticket :=
  (tickets.foldl
    (fun (acc : List Ticket × List String) t =>
      if cidOf t ∈ acc.2 then acc else (acc.1 ++ [t], acc.2 ++ [cidOf t]))
    ([], [])).1

/-- An access key together with its context (`src/accessKey.ts` shape as
used by the provider): the file-system DID, the raw key bytes and the
path the key decrypts. -/
structure AccessKeyWithContext where
  did : String
  key : List Nat
  path : List String
deriving DecidableEq, Repr

/-! ### Cipher envelope

Modelled from the spec: `browser-url/common.ts` is absent from the source
tree.  §4.1 of the spec describes the envelope: an X25519 agreement over
the session's keys, combined with a monotonically advancing nonce,
derives a fresh symmetric cipher per message; decryption "fails with
DecryptionError on authentication-tag mismatch". -/

/-- The plaintext payloads exchanged by the pairing protocol, as decoded
values: raw bytes (the challenge), the handshake acknowledgement JSON,
the query-request JSON, the approval JSON, the dismissal JSON, or a
payload that fails the query step's shape validation. -/
inductive Plain where
  | raw (bytes : List Nat)
  | ack (approved : Bool)
  | queryRequest (identifier : String) (queries : List Query)
  | approval (approved : List Query) (accountTickets : List Ticket)
      (fileSystemTickets : List Ticket) (accessKeys : List AccessKeyWithContext)
  | dismissal
  | malformed
deriving DecidableEq, Repr

/-- Modelled from the spec: a derived symmetric cipher, identified by the
derived key material — the shared secret and the nonce it was derived
with. -/
structure Cipher where
  secret : String
  nonce : Nat
deriving DecidableEq, Repr

/-- Modelled from the spec: a ciphertext binds the key it was produced
under (secret and nonce — the authentication tag) to the payload. -/
structure Ciphertext where
  secret : String
  nonce : Nat
  plain : Plain
deriving DecidableEq, Repr

/-- Parameters of `makeCipher` (`browser-url/common.ts`, absent). -/
structure MakeCipherParams where
  nonce : Nat
  producerPublicKey : String
  ourPrivateKey : String
  remotePublicKey : String

/-- Result of `makeCipher`: the derived cipher and the advanced nonce. -/
structure MadeCipher where
  cipher : Cipher
  nextNonce : Nat

/-- Modelled from the spec: `makeCipher` — "an X25519 key agreement over
the session's ephemeral keys produces a shared secret; combined with a
monotonically advancing nonce it derives a fresh symmetric key per
message", and the nonce "increments by exactly one per exchanged
message" (§4.1).  The shared secret is modelled as a string assembled
from the key material. -/
def makeCipher (p : MakeCipherParams) : MadeCipher :=
  { cipher := ⟨"dh(" ++ p.ourPrivateKey ++ "," ++ p.remotePublicKey ++ ","
        ++ p.producerPublicKey ++ ")", p.nonce⟩
    nextNonce := p.nonce + 1 }

/-- Modelled from the spec: symmetric authenticated encryption of a
payload under a derived cipher (`encryptPayload` / `encryptJSONPayload`
in `browser-url/common.ts`, absent). -/
def encryptPayload (c : Cipher) (m : Plain) : Ciphertext :=
  ⟨c.secret, c.nonce, m⟩

/-- Modelled from the spec: authenticated decryption — succeeds exactly
when the ciphertext was produced under the same derived key (same shared
secret and same nonce); otherwise "fails with DecryptionError on
authentication-tag mismatch" (§4.1). -/
def decryptPayload (c : Cipher) (ct : Ciphertext) : Except String Plain :=
  if ct.secret = c.secret ∧ ct.nonce = c.nonce then .ok ct.plain
  else .error "DecryptionError"

end Odd

namespace Odd

/-! ### Delegation Resolver ("Inventory")

Modelled from the spec: `src/inventory.ts` is absent from the source
tree; §4.3 describes its public operations `lookupFileSystemTicket`,
`findAccessKey` and `bundleTickets`. -/

/-- Modelled from the spec: a file-system capability held in the Cabinet,
as searched by `lookupFileSystemTicket`: the ticket together with the
audience DID and the path it authorizes. -/
structure FsGrant where
  did : String
  path : List String
  ticket : Ticket
deriving DecidableEq, Repr

/-- Modelled from the spec: a stored private-partition access key:
"a symmetric key (plus the path it decrypts)"; identity is the
normalized path (§3). -/
structure AccessKeyEntry where
  did : String
  path : List String
  key : List Nat
deriving DecidableEq, Repr

/-- Modelled from the spec: the Delegation Resolver's view of the
Cabinet: the file-system capabilities and access keys it can search. -/
structure Inventory where
  fsGrants : List FsGrant
  accessKeys : List AccessKeyEntry
deriving Repr

/-- Modelled from the spec: `lookupFileSystemTicket(path, did)` —
"searches the Cabinet for the most specific ticket (longest matching
path prefix) addressed to `did` that authorizes `path`; returns null,
never throws, when none exists" (§4.3). -/
def Inventory.lookupFileSystemTicket (inv : Inventory) (path : List String) (did : String) :
    Option Ticket :=
  (inv.fsGrants.foldl
    (fun (best : Option FsGrant) g =>
      if g.did == did && g.path.isPrefixOf path then
        match best with
        | none => some g
        | some b => if b.path.length < g.path.length then some g else some b
      else best)
    none).map FsGrant.ticket

/-- Modelled from the spec: `findAccessKey(path, did)` — "same idea but
for private-partition symmetric keys" (§4.3): the most specific access
key (longest matching path prefix) for `did`, or null. -/
def Inventory.findAccessKey (inv : Inventory) (path : List String) (did : String) :
    Option AccessKeyWithContext :=
  (inv.accessKeys.foldl
    (fun (best : Option AccessKeyEntry) e =>
      if e.did == did && e.path.isPrefixOf path then
        match best with
        | none => some e
        | some b => if b.path.length < e.path.length then some e else some b
      else best)
    none).map (fun e => ⟨e.did, e.key, e.path⟩)

/-- Failures of `bundleTickets`: a cyclic proof chain, a proof reference
the resolver cannot dereference (a "resolver fault", §7), or exhaustion
of the recursion allowance (proved unreachable below). -/
inductive BundleError where
  | cyclicProofChain
  | unresolvableProof (ref : String)
  | outOfFuel
deriving DecidableEq, Repr

/-- Modelled from the spec: the proof resolver ("resolves a proof
identifier to a full Ticket", §4.3), given extensionally as a finite
table from reference strings to tickets. -/
def resolveProof (resolver : List (String × Ticket)) (ref : String) : Option Ticket :=
  (resolver.find? (fun p => p.1 == ref)).map Prod.snd

/-- Modelled from the spec: the walk of a list of proof references
inside `bundleTickets`; each reference is dereferenced with the resolver
(an unresolvable reference "propagates as a typed failure", §7) and the
resolved ancestor is walked with `recurse`, threading the visited
content hashes through the siblings. -/
def bundleProofsGo (resolver : List (String × Ticket))
    (recurse : List String → Ticket → Except BundleError (List Ticket × List String)) :
    List String → List String → Except BundleError (List Ticket × List String)
  | visited, [] => .ok ([], visited)
  | visited, ref :: refs =>
    match resolveProof resolver ref with
    | none => .error (.unresolvableProof ref)
    | some anc =>
      match recurse visited anc with
      | .error e => .error e
      | .ok (ts₁, vis₁) =>
        match bundleProofsGo resolver recurse vis₁ refs with
        | .error e => .error e
        | .ok (ts₂, vis₂) => .ok (ts₁ ++ ts₂, vis₂)

/-- Modelled from the spec: the walk of one ticket inside
`bundleTickets`: visiting an already-seen content hash signals
`CyclicProofChain`; otherwise the ticket is bundled in front of the
bundles of all its proof references.  The walk threads the set of
visited content hashes and carries a recursion allowance (`fuel`). -/
def bundleTicketAux (resolver : List (String × Ticket)) :
    Nat → List String → Ticket → Except BundleError (List Ticket × List String)
  | 0, _, _ => .error .outOfFuel
  | fuel + 1, visited, t =>
    if cidOf t ∈ visited then .error .cyclicProofChain
    else
      match bundleProofsGo resolver (bundleTicketAux resolver fuel)
          (cidOf t :: visited) t.proofs with
      | .error e => .error e
      | .ok (anc, vis) => .ok (t :: anc, vis)

/-- Modelled from the spec: `bundleTickets(ticket, proofResolver)` —
"given a leaf ticket, walks its embedded proof references using
`proofResolver` and returns the leaf plus every ancestor needed for an
independent verifier to validate the chain; must terminate even if a
malicious or malformed chain contains a cycle: track visited
content-hashes and stop, signaling a `CyclicProofChain` condition"
(§4.3).  The recursion allowance `resolver.length + 2` exceeds the
number of distinct content hashes the walk can visit (the leaf plus the
resolver's range) and is proved sufficient below. -/
def bundleTickets (resolver : List (String × Ticket)) (t : Ticket) :
    Except BundleError (List Ticket) :=
  (bundleTicketAux resolver (resolver.length + 2) [] t).map Prod.fst

end Odd

namespace Odd

/-! ### Pairing session state machine (Producer side)

From `src/components/authority/browser-url/provider.ts`; the `Session`
base class (`browser-url/session.ts`) is absent from the source tree and
is modelled from the spec where noted. -/

/-- Protocol step of a session: `handshake | query | ended` (§3
"Session"). -/
inductive Step where
  | handshake
  | query
  | ended
deriving DecidableEq, Repr

/-- Modelled from the spec (`browser-url/session.ts` is absent): the
transient per-remote-DID session state — "local ephemeral key pair,
remote public key, current nonce, current protocol step" (§3), plus the
Producer's random challenge (`provider.ts`). -/
structure SessionState where
  remoteDID : String
  ourPrivateKey : String
  ourPublicKey : String
  remotePublicKey : String
  challenge : List Nat
  nonce : Nat
  step : Step
deriving DecidableEq, Repr

/-- `StepResult` (`browser-url/common.ts`, absent; modelled from the
spec): the next nonce and next step a session step hands back;
`earlyExitReason` marks the `earlyExit` path. -/
structure StepResult where
  nextNonce : Nat
  nextStep : Step
  earlyExitReason : Option String := none
deriving DecidableEq, Repr

/-- Modelled from the spec: `Session.earlyExit` — a protocol error
"always terminates the session immediately (`earlyExit`)" (§7): the
session moves to the `ended` step, recording the reason. -/
def SessionState.earlyExit (s : SessionState) (reason : String) : StepResult :=
  { nextNonce := s.nonce, nextStep := .ended, earlyExitReason := some reason }

/-- A message the Producer sends over the channel: step tag and
encrypted payload (`sendMessage` in `session.ts`, absent). -/
structure Sent where
  step : String
  payload : Ciphertext
deriving DecidableEq, Repr

/-- The `makeCipher` arguments a session assembles from its key material
and a nonce (`provider.ts` lines 147–152 etc.). -/
def SessionState.cipherParams (s : SessionState) (nonce : Nat) : MakeCipherParams :=
  { nonce := nonce
    producerPublicKey := s.ourPublicKey
    ourPrivateKey := s.ourPrivateKey
    remotePublicKey := s.remotePublicKey }

/-- `ProviderSession.handshake` (`provider.ts` lines 146–178): decrypt
the incoming payload with the cipher derived from the current nonce;
compare against the session's challenge; on mismatch take the
`earlyExit` path; on match send the encrypted `{approved: true}`
acknowledgement under the advanced nonce and continue at step `query`
with the acknowledgement cipher's next nonce. -/
def ProviderSession.handshake (s : SessionState) (payload : Ciphertext) :
    Except String (StepResult × Option Sent) :=
  let decryption := makeCipher (s.cipherParams s.nonce)
  match decryptPayload decryption.cipher payload with
  | .error e => .error e
  | .ok plain =>
    let hasCorrectChallenge := plain == .raw s.challenge
    if !hasCorrectChallenge then
      .ok (s.earlyExit ("Challenge failed during handshake with " ++ s.remoteDID), none)
    else
      let made := makeCipher (s.cipherParams decryption.nextNonce)
      .ok ({ nextNonce := made.nextNonce, nextStep := .query },
        some ⟨"handshake", encryptPayload made.cipher (.ack true)⟩)

/-- Outcome of the query step: a `StepResult` (the `earlyExit` paths) or
the suspended state carrying the decoded queries, the remote identifier
DID and the reply cipher handed to `approve`/`dismiss` (`provider.ts`
lines 214–235). -/
inductive QueryOutcome where
  | exit (result : StepResult)
  | pending (queries : List Query) (remoteIdentifierDID : String)
      (replyCipher : Cipher) (nextNonce : Nat)
deriving DecidableEq, Repr

/-- `ProviderSession.query` (`provider.ts` lines 184–236): decrypt with
the cipher derived from the current nonce; an improperly encoded payload
takes the `earlyExit` path; then the self-containment guard
`queries.every(child => queries.some(parent => isContained({parent,
child})))`; if it fails, `earlyExit`; otherwise derive the reply cipher
from the advanced nonce and suspend, emitting `provide:query`. -/
def ProviderSession.query (s : SessionState) (payload : Ciphertext) :
    Except String QueryOutcome :=
  let decryption := makeCipher (s.cipherParams s.nonce)
  match decryptPayload decryption.cipher payload with
  | .error e => .error e
  | .ok plain =>
    match plain with
    | .queryRequest identifier queries =>
      let allContained := queries.all fun child =>
        queries.any fun parent => Query.isContained parent child
      if !allContained then
        .ok (.exit (s.earlyExit
          ("Ignoring queries from " ++ s.remoteDID ++ ", asking for more than was provided.")))
      else
        let made := makeCipher (s.cipherParams decryption.nextNonce)
        .ok (.pending queries identifier made.cipher made.nextNonce)
    | _ =>
      .ok (.exit (s.earlyExit
        ("Ignoring queries from " ++ s.remoteDID ++ ", improperly encoded queries.")))

end Odd

namespace Odd

/-! ### Query approval and the message handler -/

/-- The dependencies `approveQueries` draws on: the local identifier DID
(`dependencies.identifier.did()`), the account collaborator
(`account.provideAuthority`), the Inventory, and the proof resolver
(`Ucan.ticketProofResolver`). -/
structure Deps where
  identifierDID : String
  provideAuthority : AccountQuery → List Ticket
  inventory : Inventory
  resolver : List (String × Ticket)

/-- Modelled from the spec: `Ucan.build` followed by `Ucan.toTicket`
(external UCAN library): "build a new ticket with `audience` = remote
identifier DID, `issuer` = local identifier, embedding a proof reference
to the original ticket's content hash" (§4.5). -/
def buildDelegation (audience issuer : String) (proofList : List String) : Ticket :=
  { issuer := issuer
    audience := audience
    token := "ucan(" ++ issuer ++ "|" ++ audience ++ "|"
      ++ String.intercalate "," proofList ++ ")"
    proofs := proofList }

/-- The account queries of an approved list (`provider.ts` lines
257–261: `reduce` keeping `q.query === "account"`). -/
def accountQueriesOf (qs : List Query) : List AccountQuery :=
  qs.foldl (fun acc q => match q with | .account a => acc ++ [a] | _ => acc) []

/-- The file-system queries of an approved list (`provider.ts` lines
252–255: `reduce` keeping `q.query === "fileSystem"`). -/
def fsQueriesOf (qs : List Query) : List FileSystemQuery :=
  qs.foldl (fun acc q => match q with | .fileSystem f => acc ++ [f] | _ => acc) []

/-- The original account tickets the account collaborator produces for
the approved account queries (`provider.ts` lines 262–267). -/
def accountOriginals (d : Deps) (qs : List Query) : List Ticket :=
  (accountQueriesOf qs).flatMap d.provideAuthority

/-- The `reduce((acc, a) => a ? [...acc, a] : acc, [])` idiom used by
`approveQueries`: keep the present values, drop the nulls. -/
def dropNulls {α : Type} (l : List (Option α)) : List α :=
  l.foldl (fun acc a => match a with | some t => acc ++ [t] | none => acc) []

/-- The original file-system tickets: one Inventory lookup per approved
file-system query, null lookups dropped (`provider.ts` lines 291–293:
`.map(q => lookupFileSystemTicket(q.path, q.did)).reduce((acc, a) => a ?
[...acc, a] : acc, [])`). -/
def fsOriginals (d : Deps) (qs : List Query) : List Ticket :=
  dropNulls ((fsQueriesOf qs).map fun q => d.inventory.lookupFileSystemTicket q.path q.did)

/-- The fresh delegations issued while approving queries: each original
ticket paired with the new ticket delegating it to the remote identifier
DID (`provider.ts` lines 269–276 and 294–301). -/
def freshDelegations (d : Deps) (qs : List Query) (remoteIdentifierDID : String) :
    List (Ticket × Ticket) :=
  (accountOriginals d qs ++ fsOriginals d qs).map fun t =>
    (t, buildDelegation remoteIdentifierDID d.identifierDID [cidOf t])

/-- Bundle each fresh delegation with its proof chain and de-duplicate
(`provider.ts` lines 278–289 and 303–310). -/
def bundleAll (d : Deps) (originals : List Ticket) (remoteIdentifierDID : String) :
    Except BundleError (List Ticket) := do
  let bundles ← originals.mapM fun t =>
    bundleTickets d.resolver (buildDelegation remoteIdentifierDID d.identifierDID [cidOf t])
  pure (collectUnique bundles.flatten)

/-- The access keys returned with an approval: private-partition
file-system queries, looked up in the Inventory, null results dropped
(`provider.ts` lines 312–318). -/
def accessKeysFor (d : Deps) (qs : List Query) : List AccessKeyWithContext :=
  dropNulls (((fsQueriesOf qs).filter (fun q => q.partition == Partition.priv)).map
    fun q => d.inventory.findAccessKey q.path q.did)

/-- Events the Producer session emits (`events/authority.ts` names as
used in `provider.ts`). -/
inductive Event where
  | provideQuery (queries : List Query)
  | authorised (queries : List Query)
  | authorized (queries : List Query)
  | dismissed
deriving DecidableEq, Repr

/-- How `approveQueries` can fail: the guard against an empty approved
list (`provider.ts` line 243), or a bundling failure propagated from the
Delegation Resolver. -/
inductive ApproveError where
  | emptyQueries
  | bundle (e : BundleError)
deriving DecidableEq, Repr

/-- The message text of an `ApproveError` (`provider.ts` line 243). -/
def ApproveError.message : ApproveError → String
  | .emptyQueries => "Cannot approve an empty list of queries."
  | .bundle _ => "Failed to bundle tickets."

/-- `ProviderSession.approveQueries` (`provider.ts` lines 238–338):
throw on an empty approved list; produce account tickets via the
account collaborator and file-system tickets via Inventory lookups;
issue a fresh delegation per resulting ticket and bundle it with its
proof chain; de-duplicate; gather private-partition access keys; send
one encrypted `"query"` message carrying the approval payload; then
emit `provide:authorised` and `provide:authorized`. -/
def ProviderSession.approveQueries (d : Deps) (queries : List Query)
    (remoteIdentifierDID : String) (cipher : Cipher) :
    Except ApproveError (List Sent × List Event) :=
  if queries.length = 0 then .error .emptyQueries
  else
    match bundleAll d (accountOriginals d queries) remoteIdentifierDID with
    | .error e => .error (.bundle e)
    | .ok accountTickets =>
      match bundleAll d (fsOriginals d queries) remoteIdentifierDID with
      | .error e => .error (.bundle e)
      | .ok fileSystemTickets =>
        let accessKeys := accessKeysFor d queries
        .ok
          ([⟨"query", encryptPayload cipher
              (.approval queries accountTickets fileSystemTickets accessKeys)⟩],
            [.authorised queries, .authorized queries])

/-- `ProviderSession.dismissQueries` (`provider.ts` lines 340–347): send
the encrypted `{dismissed: true}` message and emit `provide:dismissed`. -/
def ProviderSession.dismissQueries (cipher : Cipher) : List Sent × List Event :=
  ([⟨"query", encryptPayload cipher .dismissal⟩], [.dismissed])

/-- The external approve/dismiss decision for a pending query (the
`provide:query` event's callbacks; "the actual grant/deny decision is
made by a human or policy external to this core", §4.5). -/
inductive Decision where
  | approve (queries : List Query)
  | dismiss

/-- Modelled from the spec: `Session.proceed` (`browser-url/session.ts`
is absent) — "every inbound channel message triggers at most one state
transition" (§5): the session dispatches on its current step and applies
the step's `StepResult`; there is "no external re-entry once `ended`"
(§4.5); a decryption failure "must cause session abort" (§5).  A pending
query consults the external decision: a successful approval or a
dismissal resolves the step to `ended`; a failed approval rejects,
leaving the session suspended. -/
def SessionState.proceed (d : Deps) (decide : List Query → Decision)
    (s : SessionState) (payload : Ciphertext) :
    SessionState × List Sent × List Event :=
  match s.step with
  | .ended => (s, [], [])
  | .handshake =>
    match ProviderSession.handshake s payload with
    | .error _ => ({ s with step := .ended }, [], [])
    | .ok (res, sent) =>
      ({ s with nonce := res.nextNonce, step := res.nextStep },
        (match sent with | some m => [m] | none => []), [])
  | .query =>
    match ProviderSession.query s payload with
    | .error _ => ({ s with step := .ended }, [], [])
    | .ok (.exit res) =>
      ({ s with nonce := res.nextNonce, step := res.nextStep }, [], [])
    | .ok (.pending queries remoteIdentifierDID cipher nextNonce) =>
      match decide queries with
      | .approve sel =>
        match ProviderSession.approveQueries d sel remoteIdentifierDID cipher with
        | .ok (sent, events) =>
          ({ s with nonce := nextNonce, step := .ended },
            sent, Event.provideQuery queries :: events)
        | .error _ => (s, [], [Event.provideQuery queries])
      | .dismiss =>
        let (sent, events) := ProviderSession.dismissQueries cipher
        ({ s with nonce := nextNonce, step := .ended },
          sent, Event.provideQuery queries :: events)

/-- A decoded channel message (`Msg` in `browser-url/common.ts`, absent;
wire shape from §6): sender DID, step tag, encrypted payload. -/
structure Msg where
  did : String
  step : String
  payload : Ciphertext
deriving DecidableEq, Repr

/-- The parameters `provide` closes over for its message handler
(`provider.ts` lines 90–98): the random challenge, the local key
material, and (modelled from the spec, §4.1) the nonce seeded by the
handshake link. -/
structure HandlerParams where
  challenge : List Nat
  ourDID : String
  ourPrivateKey : String
  ourPublicKey : String
  initialNonce : Nat

/-- Modelled from the spec: the `ProviderSession` constructor
(`session.ts` absent): a fresh session starts at the `handshake` step
with the seeded nonce; the remote public key is the one the remote
`did:key` encodes. -/
def newProviderSession (p : HandlerParams) (remoteDID : String) : SessionState :=
  { remoteDID := remoteDID
    ourPrivateKey := p.ourPrivateKey
    ourPublicKey := p.ourPublicKey
    remotePublicKey := remoteDID
    challenge := p.challenge
    nonce := p.initialNonce
    step := .handshake }

/-- The Producer's per-remote-DID session cache (`provider.ts` line 59). -/
def SessionsCache := String → Option SessionState

/-- The session `messageHandler` works on: the cached session for the
sender DID when there is one, else a fresh `ProviderSession`
(`provider.ts` lines 107–111). -/
def sessionFor (p : HandlerParams) (cache : SessionsCache) (did : String) : SessionState :=
  match cache did with
  | some s => s
  | none => newProviderSession p did

/-- `messageHandler` (`provider.ts` lines 100–119): ignore undecodable
channel data; take the cached session for the sender DID or create a new
one; store it; let it proceed; and "if (session.ended()) delete
sessionsCache[msg.did]". -/
def messageHandler (p : HandlerParams) (d : Deps) (decide : List Query → Decision)
    (cache : SessionsCache) (msg : Option Msg) :
    SessionsCache × List Sent × List Event :=
  match msg with
  | none => (cache, [], [])
  | some m =>
    let session := sessionFor p cache m.did
    let result := SessionState.proceed d decide session m.payload
    if result.1.step = .ended then
      (fun did => if did = m.did then none else cache did, result.2.1, result.2.2)
    else
      (fun did => if did = m.did then some result.1 else cache did, result.2.1, result.2.2)

end Odd

namespace Odd

/-! ### Capability Repository ("Cabinet")

From `src/repositories/cabinet.ts` (the `Repo` class); the base
`Repository.add` (`src/repository.ts`) is absent from the source tree
and modelled from the spec. -/

/-- Modelled from the spec: `Path.toPosix` (`path/index.ts` absent) —
the normalized posix string of a path ("Identity = path (absolute,
normalized)", §3). -/
def toPosix (path : List String) : String :=
  String.intercalate "/" path

/-- A cabinet item (`cabinet.ts`): either a UCAN or an access key with
its path. -/
inductive CabinetItem where
  | ucan (u : Ticket)
  | accessKey (key : List Nat) (path : List String)
deriving DecidableEq, Repr

/-- The single string key an item maps to (`Repo.toCollection`): the
UCAN's content-hash string, or the access key's normalized posix path. -/
def CabinetItem.keyOf : CabinetItem → String
  | .ucan u => cidOf u
  | .accessKey _ path => toPosix path

/-- A cabinet collection, `Record<string, CabinetItem>` (`cabinet.ts`),
viewed as the mapping from string key to item. -/
def CabinetCollection := String → Option CabinetItem

/-- `Repo.emptyCollection` (`cabinet.ts`). -/
def emptyCollection : CabinetCollection := fun _ => none

/-- `Repo.mergeCollections(a, b) = { ...a, ...b }` (`cabinet.ts`): the
spread-union — a key maps to `b`'s entry when `b` has one, else `a`'s. -/
def mergeCollections (a b : CabinetCollection) : CabinetCollection :=
  fun k => match b k with
    | some v => some v
    | none => a k

/-- `Repo.toCollection(item)` (`cabinet.ts`): the singleton collection
holding the item under its single string key. -/
def toCollection (item : CabinetItem) : CabinetCollection :=
  fun k => if k = item.keyOf then some item else none

/-- Modelled from the spec: `Repository.add(items)` (`src/repository.ts`
absent) — "merges new items into the collection, recomputes indexes, and
persists" (§4.4): each new item is converted with `toCollection` and
merged into the current collection with `mergeCollections`, new entries
winning. -/
def cabinetAdd (c : CabinetCollection) (items : List CabinetItem) : CabinetCollection :=
  items.foldl (fun acc it => mergeCollections acc (toCollection it)) c

/-- The `ucansIndexedByCID` index rebuilt by
`Repo.collectionUpdateCallback` (`cabinet.ts`), as a function of the
collection: the UCAN stored under a content-hash key. -/
def ucansIndexedByCID (c : CabinetCollection) (k : String) : Option Ticket :=
  match c k with
  | some (.ucan u) => some u
  | _ => none

/-- The `ucansIndexedByAudience` index rebuilt by
`Repo.collectionUpdateCallback` (`cabinet.ts`), as a function of the
collection: the UCAN stored under a key, when its payload audience
matches. -/
def ucansIndexedByAudience (c : CabinetCollection) (aud : String) (k : String) :
    Option Ticket :=
  match c k with
  | some (.ucan u) => if u.audience = aud then some u else none
  | _ => none

/-- The `accessKeys` index rebuilt by `Repo.collectionUpdateCallback`
(`cabinet.ts`), as a function of the collection: the path/key pair
stored under a key. -/
def accessKeysIndex (c : CabinetCollection) (k : String) :
    Option (List String × List Nat) :=
  match c k with
  | some (.accessKey key path) => some (path, key)
  | _ => none

/-! ### File-system commit gate (`src/fileSystem.ts`) -/

/-- A change handed to `onCommit` (the `Modification` type of
`@wnfs-wg/nest` as used in `fileSystem.ts`): the changed path. -/
structure Modification where
  path : List String
deriving DecidableEq, Repr

/-- `onCommit` (`src/fileSystem.ts` lines 213–222): look up a
file-system ticket for every changed path and return
`{ commit: proofs.every(a => a !== null) }`. -/
def onCommit (inv : Inventory) (did : String) (changes : List Modification) : Bool :=
  ((changes.map fun change => inv.lookupFileSystemTicket change.path did).all
    fun a => a.isSome)

end Odd

namespace Odd

/-! ### Concrete instances used in the theorems below -/

/-- Whether a decoded payload passes the query step's shape validation
(`provider.ts` lines 194–201). -/
def Plain.isQueryRequest : Plain → Bool
  | .queryRequest _ _ => true
  | _ => false

/-- A 16-byte challenge as generated by `provide` (`randomBytes(16)`). -/
def exampleChallenge : List Nat :=
  [7, 1, 2, 3, 4, 5, 6, 0, 8, 9, 10, 11, 12, 13, 14, 15]

/-- A Producer session at the handshake step. -/
def exampleSession : SessionState :=
  { remoteDID := "did:key:zConsumer"
    ourPrivateKey := "producer-private-key"
    ourPublicKey := "producer-public-key"
    remotePublicKey := "consumer-public-key"
    challenge := exampleChallenge
    nonce := 0
    step := .handshake }

/-- The handshake message payload carrying the correct challenge,
encrypted under the cipher the session derives from its current nonce. -/
def exampleHandshakePayload : Ciphertext :=
  encryptPayload (makeCipher (exampleSession.cipherParams exampleSession.nonce)).cipher
    (.raw exampleChallenge)

/-- The same session once it has reached the query step (nonce advanced
past the handshake exchange). -/
def exampleQuerySession : SessionState :=
  { exampleSession with nonce := 2, step := .query }

/-- A single file-system query. -/
def exampleQuery : Query :=
  .fileSystem ⟨"did:key:zFileSystem", .priv, ["private", "Apps", "App"], .read⟩

/-- A query payload carrying that single query, encrypted under the
cipher derived from the query session's nonce. -/
def exampleQueryPayload : Ciphertext :=
  encryptPayload (makeCipher (exampleQuerySession.cipherParams exampleQuerySession.nonce)).cipher
    (.queryRequest "did:key:zConsumerIdentifier" [exampleQuery])

/-- Root of a three-link delegation chain. -/
def exampleRoot : Ticket :=
  ⟨"did:key:zProducer", "did:key:zProducer", "root-token", []⟩

/-- Middle link of the chain, referencing the root's content hash. -/
def exampleMid : Ticket :=
  ⟨"did:key:zProducer", "did:key:zMid", "mid-token", [cidOf exampleRoot]⟩

/-- Leaf of the chain, referencing the middle link's content hash. -/
def exampleLeaf : Ticket :=
  ⟨"did:key:zMid", "did:key:zLeaf", "leaf-token", [cidOf exampleMid]⟩

/-- A resolver that dereferences the chain's proof references. -/
def exampleResolver : List (String × Ticket) :=
  [(cidOf exampleMid, exampleMid), (cidOf exampleRoot, exampleRoot)]

/-- A ticket whose single proof reference resolves back to itself. -/
def exampleCyclicTicket : Ticket :=
  ⟨"did:key:zEvil", "did:key:zEvil", "cyclic-token", ["cyclic-ref"]⟩

/-- The resolver sending that reference back to the ticket itself. -/
def exampleCyclicResolver : List (String × Ticket) :=
  [("cyclic-ref", exampleCyclicTicket)]

/-- An Inventory holding one file-system grant and one access key. -/
def exampleInventory : Inventory :=
  { fsGrants := [⟨"did:key:zFileSystem", ["private", "Apps"], exampleRoot⟩]
    accessKeys := [⟨"did:key:zFileSystem", ["private", "Apps"], [42, 43]⟩] }

/-- Dependencies for a concrete approval run. -/
def exampleDeps : Deps :=
  { identifierDID := "did:key:zProducerIdentifier"
    provideAuthority := fun _ => [exampleRoot]
    inventory := exampleInventory
    resolver := exampleResolver }

end Odd
/-! ### Claim C3: containment is reflexive and transitive -/

namespace Odd

theorem Mode.ge_refl (m : Mode) : m.ge m = true := by
  cases m <;> rfl

theorem Mode.ge_trans {a b c : Mode} (hab : a.ge b = true) (hbc : b.ge c = true) :
    a.ge c = true := by
  cases a <;> cases b <;> cases c <;> simp_all [Mode.ge]

theorem Scope.superset_refl (s : Scope) : s.superset s = true := by
  cases s with
  | wildcard => rfl
  | caps a => simp [Scope.superset, List.all_eq_true]

theorem Scope.superset_trans {a b c : Scope}
    (hab : a.superset b = true) (hbc : b.superset c = true) :
    a.superset c = true := by
  cases a with
  | wildcard => rfl
  | caps la =>
    cases b with
    | wildcard => simp [Scope.superset] at hab
    | caps lb =>
      cases c with
      | wildcard => simp [Scope.superset] at hbc
      | caps lc =>
        simp only [Scope.superset, List.all_eq_true, decide_eq_true_eq] at *
        intro x hx
        exact hab _ (hbc _ hx)

/-- Containment is reflexive: every query contains itself. -/
theorem isContained_refl (q : Query) : Query.isContained q q = true := by
  cases q with
  | account a =>
    simp [Query.isContained, Scope.superset_refl]
  | fileSystem f =>
    simp [Query.isContained, Mode.ge_refl, List.isPrefixOf_iff_prefix]

/-- Containment is transitive. -/
theorem isContained_trans {a b c : Query}
    (hab : Query.isContained a b = true) (hbc : Query.isContained b c = true) :
    Query.isContained a c = true := by
  cases a with
  | account qa =>
    cases b with
    | account qb =>
      cases c with
      | account qc =>
        simp only [Query.isContained, Bool.and_eq_true, beq_iff_eq] at *
        exact ⟨hab.1.trans hbc.1, Scope.superset_trans hab.2 hbc.2⟩
      | fileSystem qc => simp [Query.isContained] at hbc
    | fileSystem qb => simp [Query.isContained] at hab
  | fileSystem qa =>
    cases b with
    | account qb => simp [Query.isContained] at hab
    | fileSystem qb =>
      cases c with
      | account qc => simp [Query.isContained] at hbc
      | fileSystem qc =>
        simp only [Query.isContained, Bool.and_eq_true, beq_iff_eq,
          List.isPrefixOf_iff_prefix] at *
        exact ⟨⟨⟨hab.1.1.1.trans hbc.1.1.1, hab.1.1.2.trans hbc.1.1.2⟩,
          hab.1.2.trans hbc.1.2⟩, Mode.ge_trans hab.2 hbc.2⟩

/-- C3: Query containment is reflexive and transitive: for every query Q,
`isContained {parent := Q, child := Q}` is true; and for all queries A, B, C,
if A contains B and B contains C then A contains C. -/
theorem claim_C3_containment_refl_trans :
    (∀ q : Query, Query.isContained q q = true)
      ∧ (∀ a b c : Query,
          Query.isContained a b = true → Query.isContained b c = true →
          Query.isContained a c = true) :=
  ⟨isContained_refl, fun _ _ _ hab hbc => isContained_trans hab hbc⟩

/-- Witness for C3: the transitivity component applied at concrete queries,
with both containment hypotheses discharged by evaluation. -/
theorem claim_C3_witness :
    Query.isContained
      (.fileSystem ⟨"did:key:zProducer", .priv, ["private"], .write⟩)
      (.fileSystem ⟨"did:key:zProducer", .priv, ["private", "Apps", "App"], .read⟩)
      = true :=
  claim_C3_containment_refl_trans.2
    (.fileSystem ⟨"did:key:zProducer", .priv, ["private"], .write⟩)
    (.fileSystem ⟨"did:key:zProducer", .priv, ["private", "Apps"], .read⟩)
    (.fileSystem ⟨"did:key:zProducer", .priv, ["private", "Apps", "App"], .read⟩)
    (by decide) (by decide)

end Odd
namespace Odd

/-! ### Cipher and session step lemmas -/

/-- Decrypting with the cipher that encrypted always succeeds. -/
theorem decrypt_encrypt (c : Cipher) (m : Plain) :
    decryptPayload c (encryptPayload c m) = .ok m := by
  simp [decryptPayload, encryptPayload]

/-- Decrypting with a different nonce under the same secret fails
authentication. -/
theorem decrypt_wrong_nonce (secret : String) (n n' : Nat) (m : Plain)
    (h : n' ≠ n) :
    decryptPayload ⟨secret, n'⟩ (encryptPayload ⟨secret, n⟩ m)
      = .error "DecryptionError" := by
  simp [decryptPayload, encryptPayload]
  intro hn
  exact absurd hn.symm h

/-- The code's self-containment guard always passes: every query is
contained by itself (reflexivity), and the guard quantifies the parent
over the whole list, the child included. -/
theorem allContained_true (qs : List Query) :
    (qs.all fun child => qs.any fun parent => Query.isContained parent child) = true := by
  rw [List.all_eq_true]
  intro c hc
  rw [List.any_eq_true]
  exact ⟨c, hc, isContained_refl c⟩

/-- Handshake with the correct challenge: acknowledge with the encrypted
`{approved: true}` under the advanced nonce and move to the query step
with the acknowledgement cipher's next nonce. -/
theorem handshake_challenge_match (s : SessionState) :
    ProviderSession.handshake s
        (encryptPayload (makeCipher (s.cipherParams s.nonce)).cipher (.raw s.challenge))
      = .ok ({ nextNonce := s.nonce + 2, nextStep := .query },
          some ⟨"handshake",
            encryptPayload (makeCipher (s.cipherParams (s.nonce + 1))).cipher (.ack true)⟩) := by
  simp [ProviderSession.handshake, decrypt_encrypt, makeCipher, SessionState.cipherParams]

/-- Handshake with a wrong challenge: the `earlyExit` path, nothing
sent. -/
theorem handshake_challenge_mismatch (s : SessionState) (b : List Nat)
    (h : b ≠ s.challenge) :
    ProviderSession.handshake s
        (encryptPayload (makeCipher (s.cipherParams s.nonce)).cipher (.raw b))
      = .ok (s.earlyExit ("Challenge failed during handshake with " ++ s.remoteDID), none) := by
  simp [ProviderSession.handshake, decrypt_encrypt, h]

/-- A well-formed query payload encrypted under the session's current
nonce is always accepted: the session suspends with the decoded queries,
the sender's identifier DID, and the reply cipher derived from the
advanced nonce. -/
theorem queryStep_wellFormed_pending (s : SessionState) (id : String) (qs : List Query) :
    ProviderSession.query s
        (encryptPayload (makeCipher (s.cipherParams s.nonce)).cipher (.queryRequest id qs))
      = .ok (.pending qs id (makeCipher (s.cipherParams (s.nonce + 1))).cipher (s.nonce + 2)) := by
  simp [ProviderSession.query, decrypt_encrypt, allContained_true, makeCipher, SessionState.cipherParams]

/-- A payload that fails the query step's shape validation takes the
`earlyExit` path. -/
theorem queryStep_malformed_earlyExit (s : SessionState) (pl : Plain)
    (h : pl.isQueryRequest = false) :
    ProviderSession.query s
        (encryptPayload (makeCipher (s.cipherParams s.nonce)).cipher pl)
      = .ok (.exit (s.earlyExit
          ("Ignoring queries from " ++ s.remoteDID ++ ", improperly encoded queries."))) := by
  cases pl <;> simp_all [ProviderSession.query, decrypt_encrypt, Plain.isQueryRequest]

end Odd

namespace Odd

/-- C7: within one session the nonce advances by exactly one per
exchanged message, in lock-step: `makeCipher` derives the cipher at the
given nonce and hands back that nonce plus one; the handshake step
decrypts with the session's current nonce, encrypts its reply under the
once-advanced nonce and resumes at the reply cipher's next nonce; the
query step decrypts with its current nonce and derives the reply cipher
from the once-advanced nonce; and decrypting a message with any nonce
other than the one used to encrypt it fails authentication. -/
theorem claim_C7_nonce_lockstep :
    (∀ p : MakeCipherParams,
      (makeCipher p).cipher.nonce = p.nonce ∧ (makeCipher p).nextNonce = p.nonce + 1)
    ∧ (∀ (secret : String) (n n' : Nat) (m : Plain),
        (decryptPayload ⟨secret, n'⟩ (encryptPayload ⟨secret, n⟩ m) = .ok m ↔ n' = n)
        ∧ (n' ≠ n → decryptPayload ⟨secret, n'⟩ (encryptPayload ⟨secret, n⟩ m)
            = .error "DecryptionError"))
    ∧ (∀ s : SessionState,
        ProviderSession.handshake s
            (encryptPayload (makeCipher (s.cipherParams s.nonce)).cipher (.raw s.challenge))
          = .ok ({ nextNonce := s.nonce + 2, nextStep := .query },
              some ⟨"handshake",
                encryptPayload (makeCipher (s.cipherParams (s.nonce + 1))).cipher (.ack true)⟩))
    ∧ (∀ (s : SessionState) (id : String) (qs : List Query),
        ProviderSession.query s
            (encryptPayload (makeCipher (s.cipherParams s.nonce)).cipher (.queryRequest id qs))
          = .ok (.pending qs id (makeCipher (s.cipherParams (s.nonce + 1))).cipher
              (s.nonce + 2))) := by
  refine ⟨fun p => ⟨rfl, rfl⟩, fun secret n n' m => ⟨?_, decrypt_wrong_nonce secret n n' m⟩,
    handshake_challenge_match, queryStep_wellFormed_pending⟩
  constructor
  · intro h
    by_contra hne
    rw [decrypt_wrong_nonce secret n n' m hne] at h
    exact Except.noConfusion h
  · intro h
    subst h
    exact decrypt_encrypt ⟨secret, n'⟩ m

/-- Witness for C7: decrypting a concrete message with the nonce it was
encrypted under succeeds; decrypting with a different nonce fails. -/
theorem claim_C7_witness :
    (decryptPayload ⟨"shared", 4⟩ (encryptPayload ⟨"shared", 4⟩ (.ack true)) = .ok (.ack true))
    ∧ (decryptPayload ⟨"shared", 5⟩ (encryptPayload ⟨"shared", 4⟩ (.ack true))
        = .error "DecryptionError") :=
  ⟨(claim_C7_nonce_lockstep.2.1 "shared" 4 4 (.ack true)).1.mpr rfl,
    (claim_C7_nonce_lockstep.2.1 "shared" 4 5 (.ack true)).2 (by decide)⟩

/-- C2 counterexample: run the handshake step on a payload carrying the
correct challenge; the acknowledgement the Producer sends back decrypts
to the JSON `{approved: true}` — it is not a re-encryption of the
challenge bytes, contradicting "re-encrypts the challenge and echoes it
back". -/
theorem claim_C2_counterexample :
    ProviderSession.handshake exampleSession exampleHandshakePayload
        = .ok ({ nextNonce := 2, nextStep := .query },
            some ⟨"handshake",
              encryptPayload (makeCipher (exampleSession.cipherParams 1)).cipher (.ack true)⟩)
      ∧ (encryptPayload (makeCipher (exampleSession.cipherParams 1)).cipher (.ack true)).plain
          ≠ .raw exampleSession.challenge := by
  constructor
  · exact handshake_challenge_match exampleSession
  · decide

/-- C2 (amended): when the Producer receives the handshake message, it
decrypts the payload with the cipher derived from the current nonce and
compares it byte-for-byte against its 16-byte random challenge; on
mismatch the session is aborted via `earlyExit`; on match the Producer
sends back the encrypted `{approved: true}` acknowledgement (not an
echo of the challenge) under the advanced nonce and advances the
session step to `query`. -/
theorem claim_C2_handshake_challenge (s : SessionState) (b : List Nat) :
    (b ≠ s.challenge →
      ProviderSession.handshake s
          (encryptPayload (makeCipher (s.cipherParams s.nonce)).cipher (.raw b))
        = .ok (s.earlyExit ("Challenge failed during handshake with " ++ s.remoteDID), none)
        ∧ (s.earlyExit ("Challenge failed during handshake with " ++ s.remoteDID)).nextStep
            = .ended)
    ∧ (b = s.challenge →
      ProviderSession.handshake s
          (encryptPayload (makeCipher (s.cipherParams s.nonce)).cipher (.raw b))
        = .ok ({ nextNonce := s.nonce + 2, nextStep := .query },
            some ⟨"handshake",
              encryptPayload (makeCipher (s.cipherParams (s.nonce + 1))).cipher (.ack true)⟩)) := by
  constructor
  · intro h
    exact ⟨handshake_challenge_mismatch s b h, rfl⟩
  · intro h
    subst h
    exact handshake_challenge_match s

/-- Witness for the amended C2: the mismatch branch at a concrete wrong
challenge, and the match branch at the session's own challenge. -/
theorem claim_C2_witness :
    ProviderSession.handshake exampleSession
        (encryptPayload (makeCipher (exampleSession.cipherParams exampleSession.nonce)).cipher
          (.raw [9, 9, 9]))
      = .ok (exampleSession.earlyExit
          ("Challenge failed during handshake with " ++ exampleSession.remoteDID), none) :=
  ((claim_C2_handshake_challenge exampleSession [9, 9, 9]).1 (by decide)).1

end Odd

namespace Odd

/-- C1 counterexample: a decoded list holding one query that is
contained by none of the *other* queries in the list (there are none),
which the claim says must trigger `earlyExit` — yet the Producer's query
step accepts it and suspends for approval, because the code's guard
ranges over the whole list, the query itself included. -/
theorem claim_C1_counterexample :
    (([exampleQuery].filter fun p => p ≠ exampleQuery).all
        (fun p => !(Query.isContained p exampleQuery))) = true
    ∧ ProviderSession.query exampleQuerySession exampleQueryPayload
        = .ok (.pending [exampleQuery] "did:key:zConsumerIdentifier"
            (makeCipher (exampleQuerySession.cipherParams 3)).cipher 4) :=
  ⟨by decide,
    queryStep_wellFormed_pending exampleQuerySession "did:key:zConsumerIdentifier" [exampleQuery]⟩

/-- C1 (amended): the Producer's guard quantifies the parent over the
whole decoded list, the query itself included; containment is reflexive,
so `queries.every(child => queries.some(parent => isContained))` is
always true: every well-formed decoded query list is accepted (the
session suspends and `provide:query` is emitted) and the "asking for
more than was provided" `earlyExit` branch never fires — in particular a
list whose every element is contained by some other element is accepted,
but so is a list with a query contained by no other element. -/
theorem claim_C1_selfcontainment_guard (s : SessionState) (id : String) (qs : List Query) :
    (qs.all fun child => qs.any fun parent => Query.isContained parent child) = true
    ∧ ProviderSession.query s
        (encryptPayload (makeCipher (s.cipherParams s.nonce)).cipher (.queryRequest id qs))
      = .ok (.pending qs id (makeCipher (s.cipherParams (s.nonce + 1))).cipher (s.nonce + 2)) :=
  ⟨allContained_true qs, queryStep_wellFormed_pending s id qs⟩

/-- C8: protocol errors terminate the session via `earlyExit` (ended
step, nothing further happens), and the message handler evicts ended
sessions from the per-remote-DID cache, so the next message from that
DID gets a brand-new session. -/
theorem claim_C8_earlyExit_eviction :
    (∀ (s : SessionState) (b : List Nat), b ≠ s.challenge →
      ProviderSession.handshake s
          (encryptPayload (makeCipher (s.cipherParams s.nonce)).cipher (.raw b))
        = .ok (s.earlyExit ("Challenge failed during handshake with " ++ s.remoteDID), none))
    ∧ (∀ (s : SessionState) (pl : Plain), pl.isQueryRequest = false →
      ProviderSession.query s
          (encryptPayload (makeCipher (s.cipherParams s.nonce)).cipher pl)
        = .ok (.exit (s.earlyExit
            ("Ignoring queries from " ++ s.remoteDID ++ ", improperly encoded queries."))))
    ∧ (∀ (s : SessionState) (reason : String), (s.earlyExit reason).nextStep = .ended)
    ∧ (∀ (p : HandlerParams) (d : Deps) (dec : List Query → Decision)
        (cache : SessionsCache) (m : Msg),
        (messageHandler p d dec cache (some m)).1 m.did
          = if (SessionState.proceed d dec (sessionFor p cache m.did) m.payload).1.step = .ended
            then none
            else some (SessionState.proceed d dec (sessionFor p cache m.did) m.payload).1)
    ∧ (∀ (p : HandlerParams) (cache : SessionsCache) (did : String),
        cache did = none → sessionFor p cache did = newProviderSession p did)
    ∧ (∀ (d : Deps) (dec : List Query → Decision) (s : SessionState) (payload : Ciphertext),
        s.step = .ended → SessionState.proceed d dec s payload = (s, [], [])) := by
  refine ⟨handshake_challenge_mismatch, queryStep_malformed_earlyExit,
    fun s reason => rfl, ?_, ?_, ?_⟩
  · intro p d dec cache m
    simp only [messageHandler]
    split
    · next h => simp [h]
    · next h => simp [h]
  · intro p cache did h
    simp [sessionFor, h]
  · intro d dec s payload h
    simp [SessionState.proceed, h]

/-- Witness for C8: the improperly-encoded-payload branch at a concrete
session and payload, and a fresh session built after a cache miss. -/
theorem claim_C8_witness :
    ProviderSession.query exampleQuerySession
        (encryptPayload
          (makeCipher (exampleQuerySession.cipherParams exampleQuerySession.nonce)).cipher
          .dismissal)
      = .ok (.exit (exampleQuerySession.earlyExit
          ("Ignoring queries from " ++ exampleQuerySession.remoteDID
            ++ ", improperly encoded queries.")))
    ∧ sessionFor
        ⟨exampleChallenge, "did:key:zProducer", "producer-private-key", "producer-public-key", 0⟩
        (fun _ => none) "did:key:zConsumer"
      = newProviderSession
          ⟨exampleChallenge, "did:key:zProducer", "producer-private-key", "producer-public-key", 0⟩
          "did:key:zConsumer" :=
  ⟨claim_C8_earlyExit_eviction.2.1 exampleQuerySession .dismissal (by decide),
    claim_C8_earlyExit_eviction.2.2.2.2.1
      ⟨exampleChallenge, "did:key:zProducer", "producer-private-key", "producer-public-key", 0⟩
      (fun _ => none) "did:key:zConsumer" rfl⟩

end Odd

namespace Odd

/-- Folding a null-dropping accumulator from any prefix appends exactly
the present values. -/
theorem foldl_dropNone {α : Type} (f : List α → Option α → List α)
    (hf1 : ∀ acc, f acc none = acc) (hf2 : ∀ acc t, f acc (some t) = acc ++ [t]) :
    ∀ (l : List (Option α)) (acc : List α), l.foldl f acc = acc ++ l.filterMap id := by
  intro l
  induction l with
  | nil => intro acc; simp
  | cons a l ih =>
    intro acc
    cases a with
    | none => simp [List.foldl_cons, hf1, ih]
    | some t => simp [List.foldl_cons, hf2, ih]

/-- `dropNulls` is `filterMap id`. -/
theorem dropNulls_eq_filterMap {α : Type} (l : List (Option α)) :
    dropNulls l = l.filterMap id := by
  have h := foldl_dropNone
    (fun acc (a : Option α) => match a with | some t => acc ++ [t] | none => acc)
    (fun acc => rfl) (fun acc t => rfl) l []
  simpa [dropNulls] using h

/-- C9: `lookupFileSystemTicket` yields an ordinary optional value and
its callers treat the null case as "not authorized": the file system's
`onCommit` returns `commit = true` exactly when every changed path's
lookup is non-null (`commit = false` as soon as one lookup is null), and
the Producer's approval drops null lookups from the file-system ticket
originals instead of raising. -/
theorem claim_C9_null_is_not_authorized :
    (∀ (inv : Inventory) (did : String) (changes : List Modification),
      onCommit inv did changes = true
        ↔ ∀ m ∈ changes, (inv.lookupFileSystemTicket m.path did).isSome = true)
    ∧ (∀ (d : Deps) (qs : List Query),
        fsOriginals d qs
          = (fsQueriesOf qs).filterMap fun q => d.inventory.lookupFileSystemTicket q.path q.did) := by
  constructor
  · intro inv did changes
    simp [onCommit, List.all_eq_true]
  · intro d qs
    rw [fsOriginals, dropNulls_eq_filterMap, List.filterMap_map]
    rfl

/-- Witness for C9: with the example Inventory, a commit touching an
authorized path goes through. -/
theorem claim_C9_witness :
    onCommit exampleInventory "did:key:zFileSystem" [⟨["private", "Apps", "App"]⟩] = true :=
  (claim_C9_null_is_not_authorized.1 exampleInventory "did:key:zFileSystem"
    [⟨["private", "Apps", "App"]⟩]).mpr (by decide)

/-- C10: approving the empty selection is rejected at the public
interface — `approveQueries` fails with "Cannot approve an empty list of
queries." and, at the session level, nothing is sent and no
`provide:authorised` event is emitted (only the `provide:query`
emission that preceded the decision); every successful approval of a
non-empty list sends exactly one encrypted `"query"` message and then
emits `provide:authorised`. -/
theorem claim_C10_empty_approval_guard :
    (∀ (d : Deps) (remote : String) (cipher : Cipher),
      ProviderSession.approveQueries d [] remote cipher = .error .emptyQueries
        ∧ ApproveError.message .emptyQueries = "Cannot approve an empty list of queries.")
    ∧ (∀ (d : Deps) (s : SessionState) (id : String) (qs : List Query),
        s.step = .query →
        SessionState.proceed d (fun _ => .approve []) s
            (encryptPayload (makeCipher (s.cipherParams s.nonce)).cipher (.queryRequest id qs))
          = (s, [], [Event.provideQuery qs]))
    ∧ (∀ (d : Deps) (qs : List Query) (remote : String) (cipher : Cipher)
        (out : List Sent × List Event),
        ProviderSession.approveQueries d qs remote cipher = .ok out →
          (∃ pl, out.1 = [⟨"query", encryptPayload cipher pl⟩])
            ∧ out.2 = [.authorised qs, .authorized qs]) := by
  refine ⟨fun d remote cipher => ⟨rfl, rfl⟩, ?_, ?_⟩
  · intro d s id qs h
    simp only [SessionState.proceed, h]
    rw [queryStep_wellFormed_pending s id qs]
    rfl
  · intro d qs remote cipher out h
    unfold ProviderSession.approveQueries at h
    split at h
    · exact absurd h (by simp)
    · split at h
      · exact absurd h (by simp)
      · split at h
        · exact absurd h (by simp)
        · next accountTickets _ fileSystemTickets _ =>
          rw [Except.ok.injEq] at h
          subst h
          exact ⟨⟨_, rfl⟩, rfl⟩

/-- Witness for C10: a concrete successful approval of a single
file-system query sends one `"query"` message and emits the authorised
events. -/
theorem claim_C10_witness :
    ∃ out pl,
      ProviderSession.approveQueries exampleDeps [exampleQuery]
          "did:key:zConsumerIdentifier" ⟨"shared", 3⟩ = .ok out
        ∧ out.1 = [⟨"query", encryptPayload ⟨"shared", 3⟩ pl⟩]
        ∧ out.2 = [.authorised [exampleQuery], .authorized [exampleQuery]] := by
  have hne : (ProviderSession.approveQueries exampleDeps [exampleQuery]
      "did:key:zConsumerIdentifier" ⟨"shared", 3⟩).toOption ≠ none := by decide
  cases hres : ProviderSession.approveQueries exampleDeps [exampleQuery]
      "did:key:zConsumerIdentifier" ⟨"shared", 3⟩ with
  | error e => rw [hres] at hne; simp [Except.toOption] at hne
  | ok out =>
    obtain ⟨⟨pl, hpl⟩, hev⟩ := claim_C10_empty_approval_guard.2.2 exampleDeps [exampleQuery]
      "did:key:zConsumerIdentifier" ⟨"shared", 3⟩ out hres
    exact ⟨out, pl, rfl, hpl, hev⟩

end Odd

namespace Odd

/-- Where `cabinetAdd` sends each key: the last added item carrying that
key, else the original entry. -/
theorem cabinetAdd_apply (items : List CabinetItem) (c : CabinetCollection) (k : String) :
    cabinetAdd c items k
      = match items.reverse.find? (fun it => it.keyOf == k) with
        | some it => some it
        | none => c k := by
  induction items generalizing c with
  | nil => simp [cabinetAdd]
  | cons it its ih =>
    show cabinetAdd (mergeCollections c (toCollection it)) its k = _
    rw [ih, List.reverse_cons, List.find?_append]
    cases h : its.reverse.find? (fun j => j.keyOf == k) with
    | some j => simp [h]
    | none =>
      simp only [h, Option.none_or]
      by_cases hk : it.keyOf = k
      · simp [List.find?, hk, mergeCollections, toCollection]
      · have hk' : (it.keyOf == k) = false := by simp [hk]
        simp [List.find?, hk', mergeCollections, toCollection, Ne.symm hk]

/-- Adding the same items twice leaves the collection unchanged. -/
theorem cabinetAdd_idem (c : CabinetCollection) (items : List CabinetItem) :
    cabinetAdd (cabinetAdd c items) items = cabinetAdd c items := by
  funext k
  rw [cabinetAdd_apply items (cabinetAdd c items) k, cabinetAdd_apply items c k]
  cases h : items.reverse.find? (fun it => it.keyOf == k) with
  | some it => rfl
  | none => rfl

/-- C4: Cabinet `add` is idempotent and its merge is a last-write-wins
keyed union: `mergeCollections(a, b)` is the spread-union in which `b`'s
entries win on key collision; each item maps to the single string key
`keyOf` (UCAN content-hash string, or normalized posix path for an
access key); and adding the same items twice yields the same collection,
hence the same derived indexes. -/
theorem claim_C4_cabinet_add_idempotent :
    (∀ (a b : CabinetCollection) (k : String) (v : CabinetItem),
        (b k = some v → mergeCollections a b k = some v)
        ∧ (b k = none → mergeCollections a b k = a k))
    ∧ (∀ (item : CabinetItem) (k : String),
        toCollection item k = if k = item.keyOf then some item else none)
    ∧ (∀ (c : CabinetCollection) (items : List CabinetItem),
        cabinetAdd (cabinetAdd c items) items = cabinetAdd c items
        ∧ ucansIndexedByCID (cabinetAdd (cabinetAdd c items) items)
            = ucansIndexedByCID (cabinetAdd c items)
        ∧ ucansIndexedByAudience (cabinetAdd (cabinetAdd c items) items)
            = ucansIndexedByAudience (cabinetAdd c items)
        ∧ accessKeysIndex (cabinetAdd (cabinetAdd c items) items)
            = accessKeysIndex (cabinetAdd c items)) := by
  refine ⟨?_, fun item k => rfl, ?_⟩
  · intro a b k v
    constructor <;> intro h <;> simp [mergeCollections, h]
  · intro c items
    have h := cabinetAdd_idem c items
    exact ⟨h, by rw [h], by rw [h], by rw [h]⟩

/-- Witness for C4: on concrete collections, the merge picks the second
collection's entry at its key. -/
theorem claim_C4_witness :
    mergeCollections (toCollection (.accessKey [1, 2] ["private", "Keys"]))
        (toCollection (.ucan exampleRoot)) (cidOf exampleRoot)
      = some (.ucan exampleRoot) :=
  ((claim_C4_cabinet_add_idempotent.1
      (toCollection (.accessKey [1, 2] ["private", "Keys"]))
      (toCollection (.ucan exampleRoot)) (cidOf exampleRoot) (.ucan exampleRoot)).1
    (by decide))

end Odd


namespace Odd

/-- The proofs-walk only ever grows the visited set. -/
theorem bundleProofsGo_mono (R : List (String × Ticket))
    (recurse : List String → Ticket → Except BundleError (List Ticket × List String))
    (hrec : ∀ visited t ts vis, recurse visited t = .ok (ts, vis) → visited ⊆ vis) :
    ∀ (refs visited : List String) (ts : List Ticket) (vis : List String),
      bundleProofsGo R recurse visited refs = .ok (ts, vis) → visited ⊆ vis := by
  intro refs
  induction refs with
  | nil =>
    intro visited ts vis h
    simp only [bundleProofsGo, Except.ok.injEq, Prod.mk.injEq] at h
    exact h.2 ▸ List.Subset.refl visited
  | cons ref refs ih =>
    intro visited ts vis h
    simp only [bundleProofsGo] at h
    split at h
    · simp at h
    · split at h
      · simp at h
      · next ts₁ vis₁ hrec1 =>
        split at h
        · simp at h
        · next ts₂ vis₂ hgo =>
          simp only [Except.ok.injEq, Prod.mk.injEq] at h
          exact h.2 ▸ List.Subset.trans (hrec _ _ _ _ hrec1) (ih _ _ _ hgo)

/-- The one-ticket walk only ever grows the visited set. -/
theorem bundleTicketAux_mono (R : List (String × Ticket)) :
    ∀ (fuel : Nat) (visited : List String) (t : Ticket) (ts : List Ticket) (vis : List String),
      bundleTicketAux R fuel visited t = .ok (ts, vis) → visited ⊆ vis := by
  intro fuel
  induction fuel with
  | zero =>
    intro visited t ts vis h
    exact absurd h (by simp [bundleTicketAux])
  | succ n ih =>
    intro visited t ts vis h
    simp only [bundleTicketAux] at h
    split at h
    · simp at h
    · split at h
      · simp at h
      · next anc vis' hgo =>
        simp only [Except.ok.injEq, Prod.mk.injEq] at h
        have hsub := bundleProofsGo_mono R (bundleTicketAux R n) ih t.proofs
          (cidOf t :: visited) anc vis' hgo
        exact h.2 ▸ fun x hx => hsub (List.mem_cons_of_mem _ hx)

/-- Growing the visited set cannot grow the unvisited part of a
universe. -/
theorem unvisited_card_mono (U : Finset String) {v₁ v₂ : List String} (h : v₁ ⊆ v₂) :
    (U \ v₂.toFinset).card ≤ (U \ v₁.toFinset).card := by
  apply Finset.card_le_card
  intro x hx
  rw [Finset.mem_sdiff] at *
  exact ⟨hx.1, fun hmem => hx.2 (List.mem_toFinset.mpr (h (List.mem_toFinset.mp hmem)))⟩

/-- With enough fuel relative to the unvisited universe, the proofs-walk
never runs out of fuel. -/
theorem bundleProofsGo_no_outOfFuel (R : List (String × Ticket)) (U : Finset String)
    (hclosed : ∀ ref tk, resolveProof R ref = some tk → cidOf tk ∈ U) (fuel : Nat)
    (hrec : ∀ visited t, cidOf t ∈ U → (U \ visited.toFinset).card < fuel →
      bundleTicketAux R fuel visited t ≠ .error .outOfFuel) :
    ∀ (refs visited : List String), (U \ visited.toFinset).card < fuel →
      bundleProofsGo R (bundleTicketAux R fuel) visited refs ≠ .error .outOfFuel := by
  intro refs
  induction refs with
  | nil => intro visited hlt; simp [bundleProofsGo]
  | cons ref refs ih =>
    intro visited hlt
    simp only [bundleProofsGo]
    split
    · simp
    · next anc hres =>
      split
      · next e hrec1 =>
        have hne := hrec visited anc (hclosed ref anc hres) hlt
        rw [hrec1] at hne
        simpa using hne
      · next ts₁ vis₁ hrec1 =>
        split
        · next e hgo =>
          have hsub : visited ⊆ vis₁ := bundleTicketAux_mono R fuel _ _ _ _ hrec1
          have hne := ih vis₁ (lt_of_le_of_lt (unvisited_card_mono U hsub) hlt)
          rw [hgo] at hne
          simpa using hne
        · simp

/-- With enough fuel relative to the unvisited universe, the one-ticket
walk never runs out of fuel. -/
theorem bundleTicketAux_no_outOfFuel (R : List (String × Ticket)) (U : Finset String)
    (hclosed : ∀ ref tk, resolveProof R ref = some tk → cidOf tk ∈ U) :
    ∀ (fuel : Nat) (visited : List String) (t : Ticket), cidOf t ∈ U →
      (U \ visited.toFinset).card < fuel →
      bundleTicketAux R fuel visited t ≠ .error .outOfFuel := by
  intro fuel
  induction fuel with
  | zero =>
    intro visited t hmem hlt
    exact absurd hlt (Nat.not_lt_zero _)
  | succ n ih =>
    intro visited t hmem hlt
    simp only [bundleTicketAux]
    split
    · simp
    · next hnotmem =>
      have hinU : cidOf t ∈ U \ visited.toFinset := by
        rw [Finset.mem_sdiff]
        exact ⟨hmem, fun hc => hnotmem (List.mem_toFinset.mp hc)⟩
      have hcard : (U \ ((cidOf t :: visited).toFinset)).card < n := by
        have h1 : U \ (cidOf t :: visited).toFinset
            = (U \ visited.toFinset).erase (cidOf t) := by
          ext x
          simp only [Finset.mem_sdiff, Finset.mem_erase, List.toFinset_cons,
            Finset.mem_insert, List.mem_toFinset]
          tauto
        have h2 : 1 ≤ (U \ visited.toFinset).card :=
          Finset.card_pos.mpr ⟨cidOf t, hinU⟩
        rw [h1, Finset.card_erase_of_mem hinU]
        omega
      split
      · next e hgo =>
        have hne := bundleProofsGo_no_outOfFuel R U hclosed n ih t.proofs
          (cidOf t :: visited) hcard
        rw [hgo] at hne
        simpa using hne
      · simp

/-- `bundleTickets`'s recursion allowance is always sufficient: the walk
finishes (with a bundle, a cyclic-chain or an unresolvable-proof
outcome), never by exhausting fuel. -/
theorem bundleTickets_never_outOfFuel (R : List (String × Ticket)) (t : Ticket) :
    bundleTickets R t ≠ .error .outOfFuel := by
  set U : Finset String := insert (cidOf t) ((R.map fun p => cidOf p.2).toFinset) with hU
  have hclosed : ∀ ref tk, resolveProof R ref = some tk → cidOf tk ∈ U := by
    intro ref tk h
    unfold resolveProof at h
    rw [Option.map_eq_some'] at h
    obtain ⟨p, hfind, hsnd⟩ := h
    have hmem := List.mem_of_find?_eq_some hfind
    rw [hU, Finset.mem_insert]
    right
    rw [List.mem_toFinset]
    exact hsnd ▸ List.mem_map.mpr ⟨p, hmem, rfl⟩
  have hcard : (U \ ([] : List String).toFinset).card < R.length + 2 := by
    rw [hU]
    simp only [List.toFinset_nil, Finset.sdiff_empty]
    have h1 := Finset.card_insert_le (cidOf t) ((R.map fun p => cidOf p.2).toFinset)
    have h2 := List.toFinset_card_le (R.map fun p => cidOf p.2)
    simp only [List.length_map] at h2
    omega
  have hmemU : cidOf t ∈ U := by rw [hU]; exact Finset.mem_insert_self _ _
  have h := bundleTicketAux_no_outOfFuel R U hclosed (R.length + 2) [] t hmemU hcard
  intro hcontra
  apply h
  unfold bundleTickets at hcontra
  cases haux : bundleTicketAux R (R.length + 2) [] t with
  | error e =>
    rw [haux] at hcontra
    simp only [Except.map, Except.error.injEq] at hcontra
    rw [hcontra]
  | ok p =>
    rw [haux] at hcontra
    exact absurd hcontra (by simp [Except.map])

end Odd

namespace Odd

/-- C5: `bundleTickets` terminates by tracking visited content hashes:
for every ticket and every resolver the walk never exhausts its
recursion allowance; a chain whose leaf proof reference resolves back to
the leaf itself signals `CyclicProofChain` instead of looping; and an
acyclic three-link chain returns the leaf plus every ancestor proof. -/
theorem claim_C5_bundle_termination :
    (∀ (resolver : List (String × Ticket)) (t : Ticket),
        bundleTickets resolver t ≠ .error .outOfFuel)
    ∧ (∀ (t : Ticket) (ref : String), t.proofs = [ref] →
        bundleTickets [(ref, t)] t = .error .cyclicProofChain)
    ∧ bundleTickets exampleResolver exampleLeaf
        = .ok [exampleLeaf, exampleMid, exampleRoot] := by
  refine ⟨bundleTickets_never_outOfFuel, ?_, by rfl⟩
  intro t ref h
  simp [bundleTickets, bundleTicketAux, bundleProofsGo, resolveProof, h, Except.map]

/-- Witness for C5: the self-referencing cyclic ticket is reported as a
cyclic proof chain. -/
theorem claim_C5_witness :
    exampleCyclicTicket.proofs = ["cyclic-ref"]
    ∧ bundleTickets [("cyclic-ref", exampleCyclicTicket)] exampleCyclicTicket
        = .error .cyclicProofChain :=
  ⟨rfl, claim_C5_bundle_termination.2.1 exampleCyclicTicket "cyclic-ref" rfl⟩

/-- C6: every ticket produced while approving queries (account and
file-system alike) is freshly delegated: the new ticket's audience is
the remote identifier DID taken from the query payload, its issuer is
the Producer's local identifier DID, and its proofs are exactly the
content hash of the original ticket being delegated. -/
theorem claim_C6_fresh_delegation (d : Deps) (qs : List Query) (remote : String)
    (orig fresh : Ticket) (h : (orig, fresh) ∈ freshDelegations d qs remote) :
    fresh.audience = remote ∧ fresh.issuer = d.identifierDID
      ∧ fresh.proofs = [cidOf orig] := by
  simp only [freshDelegations, List.mem_map] at h
  obtain ⟨t, hmem, hpair⟩ := h
  rw [Prod.mk.injEq] at hpair
  obtain ⟨h1, h2⟩ := hpair
  subst h1
  rw [← h2]
  exact ⟨rfl, rfl, rfl⟩

/-- Witness for C6: the concrete approval of the example file-system
query delegates the looked-up ticket to the remote identifier DID. -/
theorem claim_C6_witness :
    (buildDelegation "did:key:zConsumerIdentifier" "did:key:zProducerIdentifier"
        [cidOf exampleRoot]).audience = "did:key:zConsumerIdentifier"
    ∧ (buildDelegation "did:key:zConsumerIdentifier" "did:key:zProducerIdentifier"
        [cidOf exampleRoot]).issuer = exampleDeps.identifierDID
    ∧ (buildDelegation "did:key:zConsumerIdentifier" "did:key:zProducerIdentifier"
        [cidOf exampleRoot]).proofs = [cidOf exampleRoot] :=
  claim_C6_fresh_delegation exampleDeps [exampleQuery] "did:key:zConsumerIdentifier"
    exampleRoot
    (buildDelegation "did:key:zConsumerIdentifier" "did:key:zProducerIdentifier"
      [cidOf exampleRoot])
    (by decide)

end Odd
